import Mathlib

/-!
# Verification of the runcell container runtime against its specification

Shallow embedding of the parts of the DragonOS-Community/runcell sources that
the verified claims are about:

* `crate/celler/src/container/namespace.rs` — namespace resolver, the
  parent/child bootstrap handshake (`join_namespaces`), the uid/gid map writer
  (`write_mappings`), the PID-namespace probe (`get_pid_namespace`) and the
  sandbox rewriting pass (`update_namespaces`);
* `crate/celler/src/container/types.rs` — the `TYPETONAME` kind table;
* `crate/cli/src/container_cmd.rs` — `create_container` and `list_containers`;
* `crate/storage/src/mount.rs` — `parse_mount_flags`.

Machine integers (`u32`, `pid_t`) are modelled as `Nat`/`Int`: none of the
verified claims involves overflow.  Fallible operations return `Except`;
operating-system effects (opening files, writing to procfs) are modelled by
explicit oracles and by event traces.
-/

namespace Runcell

/-! ## Data model (OCI configuration fragments used by the claims)

The namespace kind universe is the one of the specification's data model
(`{user, ipc, pid, net, mnt, uts, cgroup}`); the `oci_spec` crate itself is an
external dependency of the repository.  A namespace path is an optional string;
`none` models an absent path and `some ""` a present-but-empty one — the two
cases the source distinguishes (`Option::is_none` versus
`is_none_or(|p| p.as_os_str().is_empty())`). -/

inductive NsKind
  | user | ipc | pid | net | mnt | uts | cgroup
deriving DecidableEq, Repr

structure LinuxNamespace where
  typ : NsKind
  path : Option String
deriving DecidableEq, Repr

/-- `oci_spec::runtime::LinuxIdMapping`: `container_id`, `host_id`, `size` are
`u32`. -/
structure LinuxIdMapping where
  container_id : Nat
  host_id : Nat
  size : Nat
deriving DecidableEq, Repr

/-- Resource limits; the claims only depend on their presence, never on their
contents. -/
abbrev LinuxResources := Unit

structure Linux where
  namespaces : Option (List LinuxNamespace)
  uid_mappings : Option (List LinuxIdMapping)
  gid_mappings : Option (List LinuxIdMapping)
  resources : Option LinuxResources
deriving DecidableEq, Repr

/-- A prestart hook, identified by its executable path (the claims never look
inside a hook). -/
abbrev Hook := String

structure Hooks where
  prestart : Option (List Hook)
deriving DecidableEq, Repr

structure Spec where
  linux : Option Linux
  hooks : Option Hooks
deriving DecidableEq, Repr

/-- The fields of `crate::process::Process` that `join_namespaces` reads. -/
structure Process where
  pid : Int
  init : Bool
deriving DecidableEq, Repr

/-- `TYPETONAME` from `crate/celler/src/container/types.rs`: the map from OCI
namespace kinds to the `/proc/<pid>/ns/` file names.  The source `HashMap`
contains an entry for every kind of the embedded universe, so the lookup is
mirrored as an `Option` that is `some` everywhere. -/
def TYPETONAME : NsKind → Option String
  | .ipc => some "ipc"
  | .user => some "user"
  | .pid => some "pid"
  | .net => some "net"
  | .mnt => some "mnt"
  | .cgroup => some "cgroup"
  | .uts => some "uts"

/-- The test `path().as_ref().is_none_or(|p| p.as_os_str().is_empty())` used by
`update_namespaces` (namespace.rs:87-91): a path is unset when it is absent or
empty. -/
def pathUnset : Option String → Bool
  | none => true
  | some p => p.isEmpty

/-- `is_userns_enabled` (namespace.rs:168-175): some namespace entry has kind
`user` *and an absent path* (`ns.path().is_none()`). -/
def is_userns_enabled (linux : Linux) : Bool :=
  (linux.namespaces.getD []).any fun ns => ns.typ == NsKind.user && ns.path.isNone

/-! ## `update_namespaces` (namespace.rs:69-99) -/

/-- The namespace file path `/proc/<init_pid>/ns/<name>` built at
namespace.rs:80-84. -/
def procNsPath (init_pid : Int) (name : String) : String :=
  "/proc/" ++ toString init_pid ++ "/ns/" ++ name

/-- The loop body of `update_namespaces` (namespace.rs:77-95): for an entry
whose kind is in `TYPETONAME` and whose path is unset (absent or empty), the
path becomes `/proc/<init_pid>/ns/<name>`; any other entry is untouched. -/
def updateNsEntry (init_pid : Int) (ns : LinuxNamespace) : LinuxNamespace :=
  match TYPETONAME ns.typ with
  | some name =>
    if pathUnset ns.path then { ns with path := some (procNsPath init_pid name) }
    else ns
  | none => ns

/-- `update_namespaces` (namespace.rs:69-99): requires the `linux` block, then
rewrites each namespace entry with `updateNsEntry`. -/
def update_namespaces (spec : Spec) (init_pid : Int) : Except String Spec :=
  match spec.linux with
  | none => .error "Spec didn't contain linux field"
  | some linux =>
    let namespaces :=
      match linux.namespaces with
      | none => none
      | some nss => some (nss.map (updateNsEntry init_pid))
    .ok { spec with linux := some { linux with namespaces := namespaces } }

/-! ## `get_pid_namespace` (namespace.rs:121-151) -/

structure PidNs where
  enabled : Bool
  fd : Option Int
deriving DecidableEq, Repr

/-- The `for` loop of `get_pid_namespace`: the first entry of kind `pid`
decides the result (an early `return` in the source); opening the namespace
file is the oracle `openO` (`fcntl::open(.., O_RDONLY, ..)`). -/
def findPidNs (openO : String → Except String Int) :
    List LinuxNamespace → Except String PidNs
  | [] => .ok ⟨false, none⟩
  | ns :: rest =>
    if ns.typ = NsKind.pid then
      match ns.path with
      | none => .ok ⟨true, none⟩
      | some ns_path =>
        match openO ns_path with
        | .error e => .error e
        | .ok fd => .ok ⟨true, some fd⟩
    else findPidNs openO rest

/-- `get_pid_namespace` (namespace.rs:121-151). -/
def get_pid_namespace (openO : String → Except String Int) (linux : Linux) :
    Except String PidNs :=
  findPidNs openO (linux.namespaces.getD [])

/-! ## `write_mappings` (namespace.rs:462-479) -/

/-- One uid/gid map line, `container_id host_id size` followed by a newline
(namespace.rs:467). -/
def idMapLine (m : LinuxIdMapping) : String :=
  toString m.container_id ++ " " ++ toString m.host_id ++ " " ++
    toString m.size ++ "\n"

/-- The payload composed by `write_mappings` (namespace.rs:464-469): size-0
entries are filtered out, the remaining entries are formatted in order and the
lines are concatenated (`join` with the empty separator). -/
def mappingData (maps : List LinuxIdMapping) : String :=
  String.join ((maps.filter fun m => m.size != 0).map idMapLine)

/-- Observable file operations attempted by `write_mappings`. -/
inductive FileOp
  | openW (path : String)
  | fwrite (fd : Int) (data : String)
  | fclose (fd : Int)
deriving DecidableEq, Repr

/-- `write_mappings` (namespace.rs:462-479).  `openO` models
`fcntl::open(path, O_WRONLY, ..)` and `writeO` models `unistd::write`; the
returned list records the attempted file operations in order.  When the
composed payload is empty nothing is opened or written and the function
returns success; otherwise the file is opened, written, and — by the source's
`defer!` — closed whether or not the write succeeded. -/
def write_mappings (openO : String → Except String Int)
    (writeO : Int → String → Except String Nat)
    (path : String) (maps : List LinuxIdMapping) :
    List FileOp × Except String Unit :=
  let data := mappingData maps
  if data.isEmpty then ([], .ok ())
  else
    match openO path with
    | .error e => ([.openW path], .error e)
    | .ok fd =>
      match writeO fd data with
      | .error e => ([.openW path, .fwrite fd data, .fclose fd], .error e)
      | .ok _ => ([.openW path, .fwrite fd data, .fclose fd], .ok ())

/-! ## `join_namespaces` (namespace.rs:314-430), as an event trace

The coordinator is a straight-line sequence of pipe reads/writes, map writes,
cgroup calls and hook executions; the model records the observable events of a
run in which every fallible operation succeeds.  A failing operation aborts
the remainder of the run, so the events of a failed run form a prefix of the
modelled trace; the ordering claims proved below are prefix-closed. -/

/-- The observable events: `writeSpec`/`writeProcess`/`writeState` and
`writeCgroupMgr` are the parent's `write_async` DATA messages, the `read…`
events its `read_async` calls; `writeUidMap pid` and `writeGidMap pid` are the
`write_mappings` calls against `/proc/<pid>/uid_map` and `/proc/<pid>/gid_map`;
`cgroupApply`/`cgroupSet` are the cgroup-manager calls; `writeContinue` and
`writeHooksComplete` the parent's SUCCESS messages; `runPrestartHooks` the
`execute_hooks` call with the hook list and the OCI state document. -/
inductive Event
  | writeSpec
  | readSpecAck
  | writeProcess
  | readProcessAck
  | writeState
  | readStateAck
  | writeCgroupMgr
  | readUserNsReady
  | writeUidMap (pid : Int)
  | writeGidMap (pid : Int)
  | cgroupApply (pid : Int)
  | cgroupSet (update : Bool)
  | writeContinue
  | readHookReady
  | runPrestartHooks (hooks : List Hook) (st : String)
  | writeHooksComplete
  | readReadyExec
deriving DecidableEq, Repr

/-- The event trace of `join_namespaces` (namespace.rs:314-430) together with
its result.  `st` is the serialized OCI state document passed to the prestart
hooks.  With `use_systemd_cgroup` the source hits a `todo!()` panic after the
first six messages (namespace.rs:359-363), modelled as an error with the trace
cut at that point; a missing `linux` block fails before any message
(namespace.rs:326-329). -/
def join_namespaces_trace (spec : Spec) (p : Process)
    (use_systemd_cgroup : Bool) (st : String) :
    List Event × Except String Unit :=
  match spec.linux with
  | none => ([], .error "Spec didn't contain linux field")
  | some linux =>
    let res := linux.resources
    let userns := is_userns_enabled linux
    let pre := [Event.writeSpec, Event.readSpecAck, Event.writeProcess,
                Event.readProcessAck, Event.writeState, Event.readStateAck]
    if use_systemd_cgroup then
      (pre, .error "systemd cgroup manager is not supported yet")
    else
      (pre ++ [Event.writeCgroupMgr, Event.readUserNsReady]
        ++ (if userns then [Event.writeUidMap p.pid, Event.writeGidMap p.pid]
            else [])
        ++ (if res.isSome then [Event.cgroupApply p.pid] else [])
        ++ (if p.init && res.isSome then [Event.cgroupSet false] else [])
        ++ [Event.writeContinue]
        ++ (if p.init then
              [Event.readHookReady]
                ++ (match spec.hooks with
                    | some hooks =>
                      [Event.runPrestartHooks (hooks.prestart.getD []) st]
                    | none => [])
                ++ [Event.writeHooksComplete]
            else [])
        ++ [Event.readReadyExec],
       .ok ())

/-! ## `list_containers` and `create_container` (crate/cli/src/container_cmd.rs) -/

/-- A live process: a pid together with the start time the kernel records for
it. -/
structure ProcEntry where
  pid : Int
  start_time : Nat
deriving DecidableEq, Repr

/-- Modelled from the spec: `is_process_running` is exported by
`celler::container`, whose defining module is not among the provided sources —
only its callers in `container_cmd.rs` are.  Spec §4.G describes it as
"probing whether `init_process_pid` is still alive"; the probe receives the
pid alone (container_cmd.rs:343), so it is a liveness lookup in the process
table. -/
def is_process_running (procs : List ProcEntry) (pid : Int) : Bool :=
  procs.any fun pr => pr.pid == pid

/-- The state record returned by `load_container_state` with the fields the
CLI reads (`init_process_pid`, `created`, `rootfs`, container_cmd.rs:343-365)
plus the recorded init-process start time (`init_process_start`,
types.rs:171). -/
structure StateRecord where
  init_process_pid : Int
  init_process_start : Nat
  created : Nat
  rootfs : String
deriving DecidableEq, Repr

/-- `list_containers` (container_cmd.rs:315-414), restricted to the records it
builds: `entries` is the state-directory listing, `load` the
`load_container_state` oracle (`none` models a record that fails to load and
is skipped).  Each loaded record's status is `Running` when
`is_process_running` holds for its pid and `Stopped` otherwise; without
`--all`, stopped containers are dropped (container_cmd.rs:335-365).  The
display-only timestamp formatting is elided: the raw `created` field is kept. -/
def list_containers (procs : List ProcEntry) (entries : List String)
    (load : String → Option StateRecord) (show_all : Bool) :
    List (String × Int × String × Nat × String) :=
  entries.filterMap fun container_id =>
    match load container_id with
    | none => none
    | some state =>
      let actual_status :=
        if is_process_running procs state.init_process_pid then "Running"
        else "Stopped"
      if !show_all && actual_status == "Stopped" then none
      else
        some (container_id, state.init_process_pid, actual_status,
              state.created, state.rootfs)

/-- `BUNDLE_BASE` (container_cmd.rs:27). -/
def BUNDLE_BASE : String := "/tmp/runcell/bundles"

/-- A flat model of the filesystem paths `create_container` touches:
the set of existing directories and the files with their contents. -/
structure Fs where
  dirs : List String
  files : List (String × String)
deriving DecidableEq, Repr

/-- `fs::create_dir_all`: succeeds whether or not the directory already
exists. -/
def Fs.create_dir_all (fs : Fs) (path : String) : Fs :=
  { fs with dirs := if fs.dirs.contains path then fs.dirs else path :: fs.dirs }

/-- Writing a file, overwriting any previous contents at the same path
(`Spec::save`). -/
def Fs.save (fs : Fs) (path contents : String) : Fs :=
  { fs with files := (path, contents) :: fs.files.filter fun pc => pc.1 ≠ path }

/-- The spec produced by `create_minimal_spec` (container_cmd.rs:289-309):
a root path, the process arguments and the terminal flag. -/
structure MinimalSpec where
  rootfs : String
  args : List String
  terminal : Bool
deriving DecidableEq, Repr

/-- `create_minimal_spec` (container_cmd.rs:289-309): all builder inputs are
supplied, so building cannot fail. -/
def create_minimal_spec (rootfs : String) (args : List String)
    (terminal : Bool) : MinimalSpec :=
  ⟨rootfs, args, terminal⟩

/-- Serialization of the minimal spec for `config.json`; the claims depend
only on the write happening, never on the document's syntax. -/
def MinimalSpec.serialize (s : MinimalSpec) : String :=
  "version 1.0.0 rootfs " ++ s.rootfs ++ " args " ++
    String.join (s.args.map fun a => a ++ " ") ++ "terminal " ++ toString s.terminal

/-- `create_container` (container_cmd.rs:83-111): choose the bundle directory
(defaulting to `BUNDLE_BASE/<id>`), create it, build the minimal spec with the
fixed `/bin/sh` argument vector, and save `config.json` into the bundle.  No
step inspects whether the container id was already created. -/
def create_container (fs : Fs) (id rootfs : String) (bundle : Option String) :
    Except String Fs :=
  let bundle_path :=
    match bundle with
    | some b => b
    | none => BUNDLE_BASE ++ "/" ++ id
  let fs1 := fs.create_dir_all bundle_path
  let spec := create_minimal_spec rootfs ["/bin/sh"] false
  let config_path := bundle_path ++ "/config.json"
  .ok (fs1.save config_path spec.serialize)

/-! ## `parse_mount_flags` (crate/storage/src/mount.rs:13-39)

`MsFlags` is a bitmask; the Linux values of the constants the source uses. -/

def MS_RDONLY : Nat := 1
def MS_NOSUID : Nat := 2
def MS_NODEV : Nat := 4
def MS_NOEXEC : Nat := 8
def MS_SYNCHRONOUS : Nat := 16
def MS_REMOUNT : Nat := 32
def MS_BIND : Nat := 4096
def MS_REC : Nat := 16384
def MS_PRIVATE : Nat := 262144
def MS_SLAVE : Nat := 524288
def MS_SHARED : Nat := 1048576

/-- The loop body of `parse_mount_flags` (mount.rs:16-36): one iteration of
the `for` loop over the accumulated flags. -/
def parseMountStep (flags : Nat) (opt : String) : Nat :=
  match opt with
  | "ro" | "readonly" => flags ||| MS_RDONLY
  | "nosuid" => flags ||| MS_NOSUID
  | "nodev" => flags ||| MS_NODEV
  | "noexec" => flags ||| MS_NOEXEC
  | "sync" => flags ||| MS_SYNCHRONOUS
  | "remount" => flags ||| MS_REMOUNT
  | "bind" => flags ||| MS_BIND
  | "rbind" => flags ||| (MS_BIND ||| MS_REC)
  | "private" => flags ||| MS_PRIVATE
  | "rprivate" => flags ||| (MS_PRIVATE ||| MS_REC)
  | "shared" => flags ||| MS_SHARED
  | "rshared" => flags ||| (MS_SHARED ||| MS_REC)
  | "slave" => flags ||| MS_SLAVE
  | "rslave" => flags ||| (MS_SLAVE ||| MS_REC)
  | _ => flags

/-- `parse_mount_flags` (mount.rs:13-39): a fold of the loop body over the
option strings, starting from the empty flag set. -/
def parse_mount_flags (options : List String) : Nat :=
  options.foldl parseMountStep 0

/-- The flag contributed by a single mount option: the table of mount.rs:17-35
read off one option at a time, `0` for an unrecognized option. -/
def mountOptionFlag (opt : String) : Nat :=
  match opt with
  | "ro" | "readonly" => MS_RDONLY
  | "nosuid" => MS_NOSUID
  | "nodev" => MS_NODEV
  | "noexec" => MS_NOEXEC
  | "sync" => MS_SYNCHRONOUS
  | "remount" => MS_REMOUNT
  | "bind" => MS_BIND
  | "rbind" => MS_BIND ||| MS_REC
  | "private" => MS_PRIVATE
  | "rprivate" => MS_PRIVATE ||| MS_REC
  | "shared" => MS_SHARED
  | "rshared" => MS_SHARED ||| MS_REC
  | "slave" => MS_SLAVE
  | "rslave" => MS_SLAVE ||| MS_REC
  | _ => 0

/-- The option strings the `match` of mount.rs:17-35 recognizes. -/
def recognizedMountOptions : List String :=
  ["ro", "readonly", "nosuid", "nodev", "noexec", "sync", "remount", "bind",
   "rbind", "private", "rprivate", "shared", "rshared", "slave", "rslave"]

/-! ## Claim-side reformulations and sample inputs -/

/-- The event trace of a `join_namespaces` run. -/
def joinTrace (spec : Spec) (p : Process) (use_systemd_cgroup : Bool)
    (st : String) : List Event :=
  (join_namespaces_trace spec p use_systemd_cgroup st).1

/-- The payload described by the claim about the ID-map writer: the lines in
list order, with every size-0 entry contributing nothing. -/
def composedLines : List LinuxIdMapping → String
  | [] => ""
  | m :: rest => (if m.size = 0 then "" else idMapLine m) ++ composedLines rest

/-- A Linux block requesting a fresh user namespace with one uid/gid mapping
and resource limits — scenario 2 of spec §8. -/
def sampleUserLinux : Linux :=
  ⟨some [⟨NsKind.user, none⟩], some [⟨0, 100000, 65536⟩],
   some [⟨0, 100000, 65536⟩], some ()⟩

/-- An OCI document holding `sampleUserLinux` and one prestart hook. -/
def sampleSpec : Spec :=
  ⟨some sampleUserLinux, some ⟨some ["/usr/bin/setup-net"]⟩⟩

/-- The init process of the sample container. -/
def sampleProc : Process := ⟨42, true⟩

/-! ## Helper lemmas -/

theorem join_cons (s : String) (l : List String) :
    String.join (s :: l) = s ++ String.join l := by
  simp [String.join_eq, String.ext_iff]

theorem join_nil : String.join [] = "" := rfl

theorem empty_isEmpty : ("" : String).isEmpty = true := rfl

theorem idMapLine_length (m : LinuxIdMapping) :
    (idMapLine m).length =
      (toString m.container_id).length + (toString m.host_id).length +
        (toString m.size).length + 3 := by
  have h1 : (" " : String).length = 1 := rfl
  have h2 : ("\n" : String).length = 1 := rfl
  simp [idMapLine, String.length_append, h1, h2]
  omega

theorem idMapLine_append_ne_empty (m : LinuxIdMapping) (s : String) :
    idMapLine m ++ s ≠ "" := by
  intro h
  have h2 := congrArg String.length h
  rw [String.length_append, idMapLine_length] at h2
  simp at h2

theorem parseMountStep_eq (flags : Nat) (opt : String) :
    parseMountStep flags opt = flags ||| mountOptionFlag opt := by
  unfold parseMountStep mountOptionFlag
  split <;> (try rfl)
  exact (Nat.or_zero flags).symm

theorem foldl_parseMountStep (opts : List String) (s : Nat) :
    opts.foldl parseMountStep s = s ||| opts.foldl parseMountStep 0 := by
  induction opts generalizing s with
  | nil => simp
  | cons a l ih =>
    simp only [List.foldl_cons]
    rw [ih (parseMountStep s a), ih (parseMountStep 0 a),
      parseMountStep_eq, parseMountStep_eq]
    simp [Nat.lor_assoc]

theorem parse_mount_flags_cons (opt : String) (opts : List String) :
    parse_mount_flags (opt :: opts) =
      mountOptionFlag opt ||| parse_mount_flags opts := by
  unfold parse_mount_flags
  simp only [List.foldl_cons]
  rw [foldl_parseMountStep, parseMountStep_eq]
  simp

theorem mountOptionFlag_of_unrecognized (o : String)
    (h : o ∉ recognizedMountOptions) : mountOptionFlag o = 0 := by
  unfold mountOptionFlag
  split <;> simp_all [recognizedMountOptions]

/-! ## C1 — `is_userns_enabled` -/

/-- C1, counterexample: for a Linux block whose single namespace entry has
kind `user` and a present-but-empty path, the claim as stated — `true` iff
some user entry has an empty or absent path — fails: the entry's path is
unset in the claim's sense, yet `is_userns_enabled` answers `false`
(namespace.rs:174 tests `ns.path().is_none()`, not emptiness). -/
theorem is_userns_enabled_empty_path_counterexample :
    ¬ (is_userns_enabled ⟨some [⟨NsKind.user, some ""⟩], none, none, none⟩ = true ↔
        ∃ ns ∈ [LinuxNamespace.mk NsKind.user (some "")],
          ns.typ = NsKind.user ∧ pathUnset ns.path = true) := by
  decide

/-- C1, amended: `is_userns_enabled` returns `true` exactly when some
namespace entry of kind `user` has an *absent* path; an entry with a
present-but-empty path does not count. -/
theorem is_userns_enabled_iff_user_absent_path (linux : Linux) :
    is_userns_enabled linux = true ↔
      ∃ ns ∈ linux.namespaces.getD [], ns.typ = NsKind.user ∧ ns.path = none := by
  simp [is_userns_enabled, List.any_eq_true, Bool.and_eq_true, beq_iff_eq,
    Option.isNone_iff_eq_none]

/-! ## C10 — `parse_mount_flags` -/

/-- C10: `parse_mount_flags` is total and order-insensitive: it returns the
bitwise union of the flags of its options, where an option outside the
recognized table contributes nothing, a duplicated option is absorbed, and
permuting the option list leaves the result unchanged. -/
theorem parse_mount_flags_union_of_flags :
    (∀ opts : List String,
        parse_mount_flags opts = (opts.map mountOptionFlag).foldr (· ||| ·) 0)
    ∧ (∀ (o : String) (opts : List String), o ∉ recognizedMountOptions →
        parse_mount_flags (o :: opts) = parse_mount_flags opts)
    ∧ (∀ (o : String) (opts : List String),
        parse_mount_flags (o :: o :: opts) = parse_mount_flags (o :: opts))
    ∧ (∀ opts₁ opts₂ : List String, opts₁.Perm opts₂ →
        parse_mount_flags opts₁ = parse_mount_flags opts₂) := by
  refine ⟨?_, ?_, ?_, ?_⟩
  · intro opts
    induction opts with
    | nil => rfl
    | cons a l ih => rw [parse_mount_flags_cons, ih]; rfl
  · intro o opts h
    rw [parse_mount_flags_cons, mountOptionFlag_of_unrecognized o h]
    simp
  · intro o opts
    rw [parse_mount_flags_cons, parse_mount_flags_cons,
      ← Nat.lor_assoc, Nat.or_self]
  · intro opts₁ opts₂ hperm
    induction hperm with
    | nil => rfl
    | cons a _ ih => rw [parse_mount_flags_cons, parse_mount_flags_cons, ih]
    | swap a b l =>
      rw [parse_mount_flags_cons, parse_mount_flags_cons,
        parse_mount_flags_cons, parse_mount_flags_cons,
        ← Nat.lor_assoc, ← Nat.lor_assoc, Nat.lor_comm (mountOptionFlag b)]
    | trans _ _ ih₁ ih₂ => rw [ih₁, ih₂]

/-! ## C8 — `create_container` invoked twice -/

/-- C8, counterexample: starting from the empty filesystem, creating container
`a1` and then creating `a1` a second time both succeed — the second `create`
does not fail, configuration error or otherwise (container_cmd.rs:83-111 never
checks for a previous creation). -/
theorem create_container_twice_succeeds :
    ∃ fs1 fs2 : Fs,
      create_container ⟨[], []⟩ "a1" "/tmp/rfs" none = .ok fs1 ∧
      create_container fs1 "a1" "/tmp/rfs" none = .ok fs2 := by
  exact ⟨_, _, rfl, rfl⟩

/-- C8, amended: `create_container` succeeds on every filesystem state — in
particular when the id was already created, in which case it recreates the
bundle directory and overwrites `config.json`; there is no duplicate-id
check. -/
theorem create_container_always_succeeds (fs : Fs) (id rootfs : String)
    (bundle : Option String) :
    ∃ fs' : Fs,
      create_container fs id rootfs bundle = .ok fs' ∧
      fs'.files.lookup
          ((match bundle with
            | some b => b
            | none => BUNDLE_BASE ++ "/" ++ id) ++ "/config.json") =
        some (create_minimal_spec rootfs ["/bin/sh"] false).serialize := by
  refine ⟨_, rfl, ?_⟩
  simp [create_container, Fs.save, Fs.create_dir_all, List.lookup]

/-! ## C3 — `write_mappings` -/

/-- C3: the ID-map writer composes exactly the lines
`container_id host_id size` + newline, in list order, every size-0 entry
elided; the payload is empty exactly when every entry has size 0; and on an
empty payload no file operation is attempted and the writer returns success,
whatever the open and write oracles would do. -/
theorem write_mappings_payload_and_empty_skip
    (openO : String → Except String Int)
    (writeO : Int → String → Except String Nat)
    (path : String) (maps : List LinuxIdMapping) :
    mappingData maps = composedLines maps
    ∧ (mappingData maps = "" ↔ ∀ m ∈ maps, m.size = 0)
    ∧ (mappingData maps = "" →
        write_mappings openO writeO path maps = ([], .ok ())) := by
  refine ⟨?_, ?_, ?_⟩
  · induction maps with
    | nil => rfl
    | cons m rest ih =>
      by_cases h : m.size = 0
      · have heq : mappingData (m :: rest) = mappingData rest := by
          simp [mappingData, List.filter_cons, h]
        rw [heq, ih, composedLines, if_pos h]
        rfl
      · have heq : mappingData (m :: rest) = idMapLine m ++ mappingData rest := by
          simp [mappingData, List.filter_cons, h, join_cons]
        rw [heq, ih, composedLines, if_neg h]
  · induction maps with
    | nil => simp [mappingData, join_nil]
    | cons m rest ih =>
      by_cases h : m.size = 0
      · have heq : mappingData (m :: rest) = mappingData rest := by
          simp [mappingData, List.filter_cons, h]
        rw [heq]
        simp only [List.mem_cons, forall_eq_or_imp, h, true_and]
        exact ih
      · have heq : mappingData (m :: rest) = idMapLine m ++ mappingData rest := by
          simp [mappingData, List.filter_cons, h, join_cons]
        rw [heq]
        constructor
        · intro hc
          exact absurd hc (idMapLine_append_ne_empty m _)
        · intro hall
          exact absurd (hall m (List.mem_cons_self m rest)) h
  · intro h
    simp [write_mappings, h, empty_isEmpty]

/-! ## C6 — `update_namespaces` -/

theorem TYPETONAME_total (k : NsKind) : ∃ name, TYPETONAME k = some name := by
  cases k <;> exact ⟨_, rfl⟩

/-- C6: `update_namespaces` fails when the spec has no `linux` block, and
otherwise succeeds with the namespace list rewritten pointwise: an entry whose
path is unset (absent or empty) gets path `/proc/<init_pid>/ns/<kind-name>`
for its kind's name in `TYPETONAME`, while an entry with a non-empty path is
returned unchanged; all other Linux fields are untouched. -/
theorem update_namespaces_rewrites_unset_paths (spec : Spec) (init_pid : Int) :
    (spec.linux = none →
        update_namespaces spec init_pid = .error "Spec didn't contain linux field")
    ∧ (∀ lx, spec.linux = some lx →
        ∃ lx', update_namespaces spec init_pid = .ok { spec with linux := some lx' }
          ∧ lx'.uid_mappings = lx.uid_mappings
          ∧ lx'.gid_mappings = lx.gid_mappings
          ∧ lx'.resources = lx.resources
          ∧ (lx.namespaces = none → lx'.namespaces = none)
          ∧ (∀ l, lx.namespaces = some l →
              ∃ l', lx'.namespaces = some l' ∧ l'.length = l.length ∧
                ∀ (i : Nat) (ns : LinuxNamespace), l[i]? = some ns →
                  (pathUnset ns.path = true →
                    ∃ name, TYPETONAME ns.typ = some name ∧
                      l'[i]? = some { ns with path := some (procNsPath init_pid name) })
                  ∧ (pathUnset ns.path = false → l'[i]? = some ns))) := by
  constructor
  · intro h
    simp [update_namespaces, h]
  · intro lx hlx
    cases hns : lx.namespaces with
    | none =>
      refine ⟨{ lx with namespaces := none }, ?_, rfl, rfl, rfl, fun _ => rfl, ?_⟩
      · simp [update_namespaces, hlx, hns]
      · intro l hl
        exact absurd hl (by simp)
    | some l =>
      refine ⟨{ lx with namespaces := some (l.map (updateNsEntry init_pid)) },
        ?_, rfl, rfl, rfl, ?_, ?_⟩
      · simp [update_namespaces, hlx, hns]
      · intro h
        exact absurd h (by simp)
      · intro l₀ hl₀
        injection hl₀ with hl₀
        subst hl₀
        refine ⟨l.map (updateNsEntry init_pid), rfl, by simp, ?_⟩
        intro i ns hnsi
        obtain ⟨name, hname⟩ := TYPETONAME_total ns.typ
        constructor
        · intro hp
          refine ⟨name, hname, ?_⟩
          rw [List.getElem?_map, hnsi]
          simp [updateNsEntry, hname, hp]
        · intro hp
          rw [List.getElem?_map, hnsi]
          simp [updateNsEntry, hname, hp]

/-! ## C9 — `get_pid_namespace` -/

theorem findPidNs_all_non_pid (openO : String → Except String Int)
    (l : List LinuxNamespace) (h : ∀ ns ∈ l, ns.typ ≠ NsKind.pid) :
    findPidNs openO l = .ok ⟨false, none⟩ := by
  induction l with
  | nil => rfl
  | cons a rest ih =>
    have ha : ¬ a.typ = NsKind.pid := h a (List.mem_cons_self _ _)
    simp only [findPidNs]
    rw [if_neg ha]
    exact ih fun ns hns => h ns (List.mem_cons_of_mem _ hns)

theorem findPidNs_append_skip (openO : String → Except String Int)
    (pre rest : List LinuxNamespace) (h : ∀ ns ∈ pre, ns.typ ≠ NsKind.pid) :
    findPidNs openO (pre ++ rest) = findPidNs openO rest := by
  induction pre with
  | nil => rfl
  | cons a l ih =>
    have ha : ¬ a.typ = NsKind.pid := h a (List.mem_cons_self _ _)
    simp only [List.cons_append, findPidNs]
    rw [if_neg ha]
    exact ih fun ns hns => h ns (List.mem_cons_of_mem _ hns)

/-- C9: `get_pid_namespace` is decided by the first pid-kind entry alone:
with no pid-kind entry it returns enabled `false` and no descriptor; with a
first pid-kind entry lacking a path it returns enabled `true` and no
descriptor; with a first pid-kind entry carrying a path whose open succeeds it
returns enabled `true` and the opened descriptor — in every case independent
of whatever entries follow. -/
theorem get_pid_namespace_first_pid_decides
    (openO : String → Except String Int) (lx : Linux) :
    ((∀ ns ∈ lx.namespaces.getD [], ns.typ ≠ NsKind.pid) →
        get_pid_namespace openO lx = .ok ⟨false, none⟩)
    ∧ (∀ pre ns post, lx.namespaces.getD [] = pre ++ ns :: post →
        (∀ q ∈ pre, q.typ ≠ NsKind.pid) → ns.typ = NsKind.pid →
        ((ns.path = none → get_pid_namespace openO lx = .ok ⟨true, none⟩)
         ∧ (∀ p fd, ns.path = some p → openO p = .ok fd →
              get_pid_namespace openO lx = .ok ⟨true, some fd⟩))) := by
  constructor
  · intro h
    exact findPidNs_all_non_pid openO _ h
  · intro pre ns post hsplit hpre hpid
    have hbase : get_pid_namespace openO lx = findPidNs openO (ns :: post) := by
      unfold get_pid_namespace
      rw [hsplit, findPidNs_append_skip openO pre _ hpre]
    constructor
    · intro hp
      rw [hbase]
      simp only [findPidNs]
      rw [if_pos hpid, hp]
    · intro p fd hp hopen
      rw [hbase]
      simp only [findPidNs]
      rw [if_pos hpid, hp]
      simp [hopen]

/-! ## C7 — `list_containers` status -/

/-- C7, counterexample: with a single live process of pid 5 and start time 77,
a state record for container `c1` recording pid 5 but start time 42 is
enumerated as `Running`, although no live process matches both the pid and the
recorded start time — the claim's start-time proviso demands `Stopped` here,
so the claim as stated fails at this input (the probe receives only the pid,
container_cmd.rs:343). -/
theorem list_containers_stale_start_time_counterexample :
    ("c1", (5 : Int), "Running", (0 : Nat), "/tmp/rfs") ∈
        list_containers [⟨5, 77⟩] ["c1"]
          (fun _ => some ⟨5, 42, 0, "/tmp/rfs"⟩) true
    ∧ ¬ (("Running" : String) = "Running" ↔
          ∃ pr ∈ [ProcEntry.mk 5 77], pr.pid = 5 ∧ pr.start_time = 42) := by
  constructor
  · decide
  · decide

/-- C7, amended: every record enumerated by `list` carries status `Running`
or `Stopped`, and `Running` exactly when some live process has the record's
`init_process_pid`; the recorded start time is not consulted. -/
theorem list_containers_status_iff_alive (procs : List ProcEntry)
    (entries : List String) (load : String → Option StateRecord)
    (show_all : Bool) (id : String) (pid : Int) (status : String)
    (created : Nat) (rootfs : String)
    (h : (id, pid, status, created, rootfs) ∈
        list_containers procs entries load show_all) :
    (status = "Running" ∨ status = "Stopped")
    ∧ (status = "Running" ↔ ∃ pr ∈ procs, pr.pid = pid) := by
  simp only [list_containers, List.mem_filterMap] at h
  obtain ⟨cid, -, hf⟩ := h
  cases hload : load cid with
  | none =>
    rw [hload] at hf
    simp at hf
  | some state =>
    rw [hload] at hf
    by_cases halive : is_process_running procs state.init_process_pid = true
    · simp only [halive, if_true] at hf
      rw [if_neg (by simp)] at hf
      simp only [Option.some.injEq, Prod.mk.injEq] at hf
      obtain ⟨-, hpid, hstatus, -, -⟩ := hf
      subst hstatus
      subst hpid
      refine ⟨Or.inl rfl, ?_⟩
      constructor
      · intro _
        obtain ⟨pr, hm, hb⟩ := List.any_eq_true.mp halive
        exact ⟨pr, hm, by simpa using hb⟩
      · intro _
        rfl
    · have hfalse : is_process_running procs state.init_process_pid = false :=
        Bool.not_eq_true _ ▸ Bool.eq_false_iff.mpr halive
      simp only [hfalse, if_false] at hf
      cases show_all with
      | true =>
        rw [if_neg (by simp)] at hf
        simp only [Option.some.injEq, Prod.mk.injEq] at hf
        obtain ⟨-, hpid, hstatus, -, -⟩ := hf
        subst hstatus
        subst hpid
        refine ⟨Or.inr rfl, ?_⟩
        constructor
        · intro hcontra
          exact absurd hcontra (by decide)
        · intro ⟨pr, hm, hpr⟩
          exact absurd (List.any_eq_true.mpr ⟨pr, hm, by simpa using hpr⟩) halive
      | false =>
        rw [if_pos (by simp)] at hf
        simp at hf

/-- C7, witness of the amended theorem at the concrete input of the
counterexample: the record of container `c1` is enumerated as `Running`, and
indeed some live process carries its pid. -/
theorem list_containers_status_iff_alive_witness :
    (("Running" : String) = "Running" ∨ ("Running" : String) = "Stopped")
    ∧ (("Running" : String) = "Running" ↔
        ∃ pr ∈ [ProcEntry.mk 5 77], pr.pid = 5) :=
  list_containers_status_iff_alive [⟨5, 77⟩] ["c1"]
    (fun _ => some ⟨5, 42, 0, "/tmp/rfs"⟩) true "c1" 5 "Running" 0 "/tmp/rfs"
    (by decide)

/-! ## C2 — uid/gid map writes sit strictly between the user-namespace-ready
signal and the continue signal -/

/-- C2: in every `join_namespaces` run over a spec with a `linux` block, if
user-namespace-create is enabled the uid-map write and the gid-map write both
occur strictly after the (unique) user-namespace-ready read and strictly
before the (unique) continue write; if it is not enabled, no map write occurs
anywhere in the handshake. -/
theorem join_namespaces_map_writes_between_ready_and_continue
    (spec : Spec) (p : Process) (st : String) (lx : Linux)
    (hlx : spec.linux = some lx) :
    (is_userns_enabled lx = true →
        ∃ A B C, joinTrace spec p false st =
            A ++ Event.readUserNsReady :: (B ++ Event.writeContinue :: C)
          ∧ Event.writeUidMap p.pid ∈ B
          ∧ Event.writeGidMap p.pid ∈ B
          ∧ Event.readUserNsReady ∉ A
          ∧ Event.writeContinue ∉ B
          ∧ (∀ q : Int, Event.writeUidMap q ∉ A ∧ Event.writeUidMap q ∉ C
              ∧ Event.writeGidMap q ∉ A ∧ Event.writeGidMap q ∉ C))
    ∧ (is_userns_enabled lx = false →
        ∀ q : Int, Event.writeUidMap q ∉ joinTrace spec p false st
          ∧ Event.writeGidMap q ∉ joinTrace spec p false st) := by
  constructor
  · intro hu
    refine ⟨[.writeSpec, .readSpecAck, .writeProcess, .readProcessAck,
             .writeState, .readStateAck, .writeCgroupMgr],
            [.writeUidMap p.pid, .writeGidMap p.pid]
              ++ (if lx.resources.isSome then [.cgroupApply p.pid] else [])
              ++ (if p.init && lx.resources.isSome then [.cgroupSet false] else []),
            (if p.init then
               [.readHookReady]
                 ++ (match spec.hooks with
                     | some hooks => [.runPrestartHooks (hooks.prestart.getD []) st]
                     | none => [])
                 ++ [.writeHooksComplete]
             else []) ++ [.readReadyExec],
            ?_, ?_, ?_, ?_, ?_, ?_⟩
    · simp [joinTrace, join_namespaces_trace, hlx, hu, List.append_assoc]
    · simp
    · simp
    · simp
    · cases hr : lx.resources.isSome <;> cases hi : p.init <;> simp [hr, hi]
    · intro q
      refine ⟨by simp, ?_, by simp, ?_⟩ <;>
        (cases hh : spec.hooks <;> cases hi : p.init <;> simp [hh, hi])
  · intro hu q
    constructor <;>
      (cases hr : lx.resources <;> cases hi : p.init <;> cases hh : spec.hooks <;>
        simp [joinTrace, join_namespaces_trace, hlx, hu, hr, hi, hh])

/-- C2, witness: the theorem applied to the sample user-namespace container
start. -/
theorem join_namespaces_map_writes_witness :
    (is_userns_enabled sampleUserLinux = true →
        ∃ A B C, joinTrace sampleSpec sampleProc false "st" =
            A ++ Event.readUserNsReady :: (B ++ Event.writeContinue :: C)
          ∧ Event.writeUidMap sampleProc.pid ∈ B
          ∧ Event.writeGidMap sampleProc.pid ∈ B
          ∧ Event.readUserNsReady ∉ A
          ∧ Event.writeContinue ∉ B
          ∧ (∀ q : Int, Event.writeUidMap q ∉ A ∧ Event.writeUidMap q ∉ C
              ∧ Event.writeGidMap q ∉ A ∧ Event.writeGidMap q ∉ C))
    ∧ (is_userns_enabled sampleUserLinux = false →
        ∀ q : Int,
          Event.writeUidMap q ∉ joinTrace sampleSpec sampleProc false "st"
          ∧ Event.writeGidMap q ∉ joinTrace sampleSpec sampleProc false "st") :=
  join_namespaces_map_writes_between_ready_and_continue sampleSpec sampleProc
    "st" sampleUserLinux rfl

/-! ## C4 — cgroup `apply` strictly before `set`; `set` iff resources ∧ init -/

/-- C4: in every `join_namespaces` run over a spec with a `linux` block, a
`set` call appears exactly when resources are present and the process is the
init process, every `set` call carries `update = false`, and with resources
present `apply(child_pid)` occurs with no `set` call anywhere before it
(and, for the init process, a `set(resources, false)` call after it). -/
theorem join_namespaces_cgroup_apply_before_set
    (spec : Spec) (p : Process) (st : String) (lx : Linux)
    (hlx : spec.linux = some lx) :
    ((∃ u, Event.cgroupSet u ∈ joinTrace spec p false st) ↔
        (p.init = true ∧ lx.resources.isSome = true))
    ∧ (∀ u, Event.cgroupSet u ∈ joinTrace spec p false st → u = false)
    ∧ (lx.resources.isSome = true →
        ∃ A B, joinTrace spec p false st = A ++ Event.cgroupApply p.pid :: B
          ∧ (∀ u, Event.cgroupSet u ∉ A)
          ∧ (p.init = true → Event.cgroupSet false ∈ B)) := by
  refine ⟨?_, ?_, ?_⟩
  · cases hu : is_userns_enabled lx <;> cases hr : lx.resources <;>
      cases hi : p.init <;> cases hh : spec.hooks <;>
        simp [joinTrace, join_namespaces_trace, hlx, hu, hr, hi, hh]
  · intro u
    cases hu : is_userns_enabled lx <;> cases hr : lx.resources <;>
      cases hi : p.init <;> cases hh : spec.hooks <;>
        simp [joinTrace, join_namespaces_trace, hlx, hu, hr, hi, hh]
  · intro hres
    refine ⟨[.writeSpec, .readSpecAck, .writeProcess, .readProcessAck,
             .writeState, .readStateAck, .writeCgroupMgr, .readUserNsReady]
              ++ (if is_userns_enabled lx then
                    [.writeUidMap p.pid, .writeGidMap p.pid]
                  else []),
            (if p.init && lx.resources.isSome then [.cgroupSet false] else [])
              ++ [.writeContinue]
              ++ (if p.init then
                    [.readHookReady]
                      ++ (match spec.hooks with
                          | some hooks =>
                            [.runPrestartHooks (hooks.prestart.getD []) st]
                          | none => [])
                      ++ [.writeHooksComplete]
                  else []) ++ [.readReadyExec],
            ?_, ?_, ?_⟩
    · cases hu : is_userns_enabled lx <;>
        simp [joinTrace, join_namespaces_trace, hlx, hu, hres, List.append_assoc]
    · intro u
      cases hu : is_userns_enabled lx <;> simp [hu]
    · intro hi
      simp [hi, hres]

/-- C4, witness: the theorem applied to the sample container start, whose
Linux block carries resources and whose process is init. -/
theorem join_namespaces_cgroup_witness :
    ((∃ u, Event.cgroupSet u ∈ joinTrace sampleSpec sampleProc false "st") ↔
        (sampleProc.init = true ∧ sampleUserLinux.resources.isSome = true))
    ∧ (∀ u, Event.cgroupSet u ∈ joinTrace sampleSpec sampleProc false "st" →
        u = false)
    ∧ (sampleUserLinux.resources.isSome = true →
        ∃ A B, joinTrace sampleSpec sampleProc false "st" =
            A ++ Event.cgroupApply sampleProc.pid :: B
          ∧ (∀ u, Event.cgroupSet u ∉ A)
          ∧ (sampleProc.init = true → Event.cgroupSet false ∈ B)) :=
  join_namespaces_cgroup_apply_before_set sampleSpec sampleProc "st"
    sampleUserLinux rfl

/-! ## C5 — the prestart-hook sub-handshake runs exactly for the init process -/

/-- C5: in every `join_namespaces` run over a spec with a `linux` block, the
init process gets the contiguous sub-handshake — the ready-for-hooks read,
then (when hooks are configured) the prestart-hook execution with the OCI
state document, then the hooks-complete write; with no hooks block configured
the read and write still happen but nothing is executed; and for a non-init
process none of the three occurs. -/
theorem join_namespaces_prestart_exactly_for_init
    (spec : Spec) (p : Process) (st : String) (lx : Linux)
    (hlx : spec.linux = some lx) :
    (∀ hks, p.init = true → spec.hooks = some hks →
        ∃ A B, joinTrace spec p false st =
            A ++ Event.readHookReady ::
              Event.runPrestartHooks (hks.prestart.getD []) st ::
                Event.writeHooksComplete :: B)
    ∧ (p.init = true → spec.hooks = none →
        (∃ A B, joinTrace spec p false st =
            A ++ Event.readHookReady :: Event.writeHooksComplete :: B)
          ∧ (∀ hs s, Event.runPrestartHooks hs s ∉ joinTrace spec p false st))
    ∧ (p.init = false →
        Event.readHookReady ∉ joinTrace spec p false st
        ∧ Event.writeHooksComplete ∉ joinTrace spec p false st
        ∧ ∀ hs s, Event.runPrestartHooks hs s ∉ joinTrace spec p false st) := by
  refine ⟨?_, ?_, ?_⟩
  · intro hks hi hh
    refine ⟨[.writeSpec, .readSpecAck, .writeProcess, .readProcessAck,
             .writeState, .readStateAck, .writeCgroupMgr, .readUserNsReady]
              ++ (if is_userns_enabled lx then
                    [.writeUidMap p.pid, .writeGidMap p.pid]
                  else [])
              ++ (if lx.resources.isSome then [.cgroupApply p.pid] else [])
              ++ (if p.init && lx.resources.isSome then [.cgroupSet false] else [])
              ++ [.writeContinue],
            [.readReadyExec], ?_⟩
    cases hu : is_userns_enabled lx <;> cases hr : lx.resources <;>
      simp [joinTrace, join_namespaces_trace, hlx, hu, hr, hi, hh,
        List.append_assoc]
  · intro hi hh
    constructor
    · refine ⟨[.writeSpec, .readSpecAck, .writeProcess, .readProcessAck,
               .writeState, .readStateAck, .writeCgroupMgr, .readUserNsReady]
                ++ (if is_userns_enabled lx then
                      [.writeUidMap p.pid, .writeGidMap p.pid]
                    else [])
                ++ (if lx.resources.isSome then [.cgroupApply p.pid] else [])
                ++ (if p.init && lx.resources.isSome then [.cgroupSet false] else [])
                ++ [.writeContinue],
              [.readReadyExec], ?_⟩
      cases hu : is_userns_enabled lx <;> cases hr : lx.resources <;>
        simp [joinTrace, join_namespaces_trace, hlx, hu, hr, hi, hh,
          List.append_assoc]
    · intro hs s
      cases hu : is_userns_enabled lx <;> cases hr : lx.resources <;>
        simp [joinTrace, join_namespaces_trace, hlx, hu, hr, hi, hh]
  · intro hi
    refine ⟨?_, ?_, ?_⟩ <;>
      (try intro hs s) <;>
        (cases hu : is_userns_enabled lx <;> cases hr : lx.resources <;>
          cases hh : spec.hooks <;>
            simp [joinTrace, join_namespaces_trace, hlx, hu, hr, hi, hh])

/-- C5, witness: the theorem applied to the sample init-process container
start with one configured prestart hook. -/
theorem join_namespaces_prestart_witness :
    (∀ hks, sampleProc.init = true → sampleSpec.hooks = some hks →
        ∃ A B, joinTrace sampleSpec sampleProc false "st" =
            A ++ Event.readHookReady ::
              Event.runPrestartHooks (hks.prestart.getD []) "st" ::
                Event.writeHooksComplete :: B)
    ∧ (sampleProc.init = true → sampleSpec.hooks = none →
        (∃ A B, joinTrace sampleSpec sampleProc false "st" =
            A ++ Event.readHookReady :: Event.writeHooksComplete :: B)
          ∧ (∀ hs s, Event.runPrestartHooks hs s ∉
              joinTrace sampleSpec sampleProc false "st"))
    ∧ (sampleProc.init = false →
        Event.readHookReady ∉ joinTrace sampleSpec sampleProc false "st"
        ∧ Event.writeHooksComplete ∉ joinTrace sampleSpec sampleProc false "st"
        ∧ ∀ hs s, Event.runPrestartHooks hs s ∉
            joinTrace sampleSpec sampleProc false "st") :=
  join_namespaces_prestart_exactly_for_init sampleSpec sampleProc "st"
    sampleUserLinux rfl

end Runcell
